import Mathlib

/-!
Verification development for the file-event notification and log-rotation
layer in `src/src-tauri/src/commands/file.rs`.

The development shallowly embeds the two components of that file:

* the watch manager (`watch_directory`): the filesystem is abstracted as a
  stream of received items (raw events or delivery errors), and the outcomes
  of the fallible environment calls (`notify::recommended_watcher`,
  `watcher.watch`) are injected as `Option String` parameters (`none` means
  the call succeeded, `some e` means it failed with message `e`);

* the log rotator (`append_log`): the filesystem is a map from file names to
  optional contents (`FS`), file size is content length, and the fallible
  environment calls (`create_dir_all`, the final open and `writeln!`, and
  each rotation `rename`) get injected failure flags.  `fs::metadata` on an
  existing file is modelled as always succeeding.  Paths are plain strings;
  `format!("{}.{}", path, i)` is modelled by `dotted`.
-/

/-! ### Watch manager (`watch_directory`) -/

/-- The `notify::EventKind` cases distinguished by the code's `matches!`:
`Create(_)`, `Modify(_)`, `Remove(_)` versus everything else (the payloads
are irrelevant to the match, so they are dropped). -/
inductive EventKind
  | create
  | modify
  | remove
  | access
  | other
deriving DecidableEq

/-- A raw filesystem event: a kind and the list of affected paths (already
converted to strings; non-unicode paths that `to_str` would drop are outside
the model). -/
structure FsEvent where
  kind : EventKind
  paths : List String
deriving DecidableEq

/-- Rust `str::ends_with`: the characters of `suffix` are a suffix of the
characters of `s` (case-sensitive exact suffix match). -/
def ends_with (s suffix : String) : Bool :=
  s.data.drop (s.data.length - suffix.data.length) == suffix.data

/-- The extension filter from the watch loop:
`p.ends_with(".yaml") || p.ends_with(".yml") || p.ends_with(".json")`. -/
def hasAllowedExt (p : String) : Bool :=
  ends_with p ".yaml" || ends_with p ".yml" || ends_with p ".json"

/-- The kind filter from the watch loop:
`matches!(event.kind, Create(_) | Modify(_) | Remove(_))`. -/
def kindRelevant : EventKind → Bool
  | .create => true
  | .modify => true
  | .remove => true
  | .access => false
  | .other => false

/-- Handling of one successfully received raw event in the watch loop: the
list of notifications emitted for it (each notification is the filtered path
list passed to `window.emit("spec-files-changed", &paths)`). -/
def processEvent (e : FsEvent) : List (List String) :=
  if kindRelevant e.kind then
    let paths := e.paths.filter hasAllowedExt
    if paths.isEmpty then [] else [paths]
  else []

/-- One item received from the watcher channel: `Ok(Ok(event))` or
`Ok(Err(e))`.  Closure of the channel (`Err(_)` from `recv`, which breaks the
loop) is modelled by the end of the item list. -/
inductive RecvItem
  | good (e : FsEvent)
  | bad (msg : String)

/-- The receive loop of the spawned watch task: delivery errors are logged
and skipped, events are filtered and emitted, channel closure ends it. -/
def watchLoop : List RecvItem → List (List String)
  | [] => []
  | .good e :: rest => processEvent e ++ watchLoop rest
  | .bad _ :: rest => watchLoop rest

/-- Observable outcome of a `watch_directory` call: the value returned to
the caller and the notifications emitted by the spawned task. -/
structure WatchOutcome where
  ret : Except String Unit
  emitted : List (List String)

/-- `watch_directory`: spawns the monitoring thread and returns `Ok(())`.
`constructErr` is the outcome of `notify::recommended_watcher` and
`registerErr` the outcome of `watcher.watch`; a failure of either makes the
spawned thread log to stderr and return before entering the loop, so nothing
is emitted — but the function's own return value is `Ok(())` either way,
since `Ok(())` is returned right after `thread::spawn`. -/
def watch_directory (constructErr registerErr : Option String)
    (items : List RecvItem) : WatchOutcome where
  ret := Except.ok ()
  emitted :=
    match constructErr with
    | some _ => []
    | none =>
      match registerErr with
      | some _ => []
      | none => watchLoop items

/-! ### Claims C1 and C2 -/

/-- C1, counterexample: with a failing watcher construction (and an empty
event stream), `watch_directory` still returns `Ok(())` to its caller — it
does not fail fast as the claim states, because `Ok(())` is returned
unconditionally right after spawning the thread. -/
theorem c1_counterexample :
    (watch_directory (some "Failed to create watcher") none []).ret =
      Except.ok () := rfl

/-- C1, amended: `watch_directory` always returns `Ok(())`; when watcher
construction or path registration fails, the failure is confined to the
background task, which emits no notification and exits — the caller is never
told. -/
theorem c1_amended (constructErr registerErr : Option String)
    (items : List RecvItem) :
    (watch_directory constructErr registerErr items).ret = Except.ok () ∧
    (constructErr.isSome = true ∨ registerErr.isSome = true →
      (watch_directory constructErr registerErr items).emitted = []) := by
  refine ⟨rfl, ?_⟩
  intro h
  cases constructErr with
  | some e => rfl
  | none =>
    cases registerErr with
    | some e => rfl
    | none => simp at h

/-- Witness for C1 at a concrete failing construction. -/
theorem c1_amended_witness :
    (watch_directory (some "boom") none []).ret = Except.ok () ∧
    (watch_directory (some "boom") none []).emitted = [] :=
  ⟨(c1_amended (some "boom") none []).1,
   (c1_amended (some "boom") none []).2 (Or.inl rfl)⟩

/-- C2: a raw event produces exactly one notification precisely when its
kind is Create/Modify/Remove and some path survives the extension filter; the
notification is exactly the filtered sublist (hence the matching paths in
their original relative order), and a wrong kind or an empty filtered list
produces nothing. -/
theorem c2_event_filtering (e : FsEvent) :
    (kindRelevant e.kind = true → e.paths.filter hasAllowedExt ≠ [] →
      processEvent e = [e.paths.filter hasAllowedExt]) ∧
    (kindRelevant e.kind = false → processEvent e = []) ∧
    (e.paths.filter hasAllowedExt = [] → processEvent e = []) ∧
    (e.paths.filter hasAllowedExt).Sublist e.paths ∧
    (∀ p, p ∈ e.paths.filter hasAllowedExt ↔
      p ∈ e.paths ∧ hasAllowedExt p = true) := by
  refine ⟨?_, ?_, ?_, List.filter_sublist e.paths, ?_⟩
  · intro hk hne
    simp [processEvent, hk, List.isEmpty_iff, hne]
  · intro hk
    simp [processEvent, hk]
  · intro hemp
    simp [processEvent, hemp]
  · intro p
    simp [List.mem_filter]

/-- Witness for C2 at a concrete event: a Create event touching one yaml
file and one text file yields exactly one notification with the yaml path. -/
theorem c2_event_filtering_witness :
    processEvent ⟨EventKind.create, ["a.yaml", "b.txt"]⟩ = [["a.yaml"]] :=
  ((c2_event_filtering ⟨EventKind.create, ["a.yaml", "b.txt"]⟩).1
    (by decide) (by decide)).trans (by decide)

/-! ### Log rotator (`append_log`) -/

/-- The filesystem as seen by `append_log`: a map from file name to optional
content.  `none` means the file does not exist. -/
abbrev FS := String → Option String

/-- `format!("{}.{}", path, i)`: the name of rotation slot `i`. -/
def dotted (path : String) (i : Nat) : String :=
  path ++ "." ++ toString i

/-- A successful `fs::rename(src, tgt)`: `tgt` now holds what `src` held,
`src` is gone, everything else is untouched. -/
def fsRename (fs : FS) (src tgt : String) : FS :=
  fun q => if q = tgt then fs src else if q = src then none else fs q

/-- One iteration of the rotation loop at index `i`: the source is `path`
when `i == 1` and `path.(i-1)` otherwise, the target is `path.i`; the rename
is attempted only if the source exists, and a failing rename (`renameFails i`)
is discarded by `let _ = fs::rename(..)`, leaving the filesystem unchanged. -/
def rotStep (path : String) (renameFails : Nat → Bool) (fs : FS) (i : Nat) :
    FS :=
  let src := if i = 1 then path else dotted path (i - 1)
  if (fs src).isSome then
    if renameFails i then fs else fsRename fs src (dotted path i)
  else fs

/-- The rotation loop `for i in (1..max_files).rev() { .. }`: the Rust range
`1..max_files` is `[1, …, max_files-1]`, traversed in reverse. -/
def rotate (fs : FS) (path : String) (maxFiles : Nat)
    (renameFails : Nat → Bool) : FS :=
  ((List.range' 1 (maxFiles - 1)).reverse).foldl (rotStep path renameFails) fs

/-- Failure injection meaning every environment call succeeds. -/
def noFail : Nat → Bool := fun _ => false

/-- `fs::metadata(path).len()`: the size of the file at `path`, 0 if absent
(the code only reads it behind an `exists()` check). -/
def fsSize (fs : FS) (p : String) : Nat :=
  ((fs p).getD "").length

/-- `append_log(path, line, max_bytes, max_files)`. Steps, in code order:
ensure the parent directory exists (`mkdirFails` aborts with an error);
if `path` exists and its size is at least `max_bytes`, run the rotation loop
(individual rename failures injected by `renameFails` are ignored); open
`path` in create/append mode (`openFails` aborts) and write `line` plus a
newline (`writeFails` aborts); return `Ok(())` with the updated filesystem. -/
def append_log (fs : FS) (path line : String) (maxBytes maxFiles : Nat)
    (mkdirFails : Bool) (renameFails : Nat → Bool)
    (openFails writeFails : Bool) : Except String FS :=
  if mkdirFails then Except.error "Failed to create log directory"
  else
    let fs1 :=
      if (fs path).isSome then
        if maxBytes ≤ fsSize fs path then rotate fs path maxFiles renameFails
        else fs
      else fs
    if openFails then Except.error "Failed to open log file"
    else if writeFails then Except.error "Failed to write to log file"
    else Except.ok fun q =>
      if q = path then some (((fs1 path).getD "") ++ line ++ "\n")
      else fs1 q

/-- The filesystem after a fully successful `append_log` call (all injected
environment calls succeed, so the result is always `Ok`; the error branch of
the match is unreachable there). -/
def runAppend (fs : FS) (path line : String) (maxBytes maxFiles : Nat) : FS :=
  match append_log fs path line maxBytes maxFiles false noFail false false with
  | Except.ok fs2 => fs2
  | Except.error _ => fs

/-- A concrete filesystem from an association list of files. -/
def fsOf : List (String × String) → FS
  | [] => fun _ => none
  | (a, b) :: l => fun q => if q = a then some b else fsOf l q

/-- The empty filesystem. -/
def emptyFS : FS := fun _ => none

/-- Pointwise evaluation of a fully successful `append_log` call: the
post-state maps `path` to the (possibly rotated) old content of `path` plus
the new line and newline, and agrees with the rotated filesystem elsewhere. -/
theorem runAppend_eval (fs : FS) (path line : String) (mb m : Nat)
    (q : String) :
    runAppend fs path line mb m q =
      if q = path then
        some (((if (fs path).isSome then
            if mb ≤ fsSize fs path then rotate fs path m noFail else fs
          else fs) path).getD "" ++ line ++ "\n")
      else (if (fs path).isSome then
            if mb ≤ fsSize fs path then rotate fs path m noFail else fs
          else fs) q := rfl

/-! ### Name lemmas for the rotation chain -/

theorem length_dotted (path : String) (i : Nat) :
    (dotted path i).length = path.length + 1 + (toString i).length := by
  simp [dotted, String.length_append, show (".").length = 1 from rfl]

theorem dotted_ne_base (path : String) (i : Nat) : dotted path i ≠ path := by
  intro h
  have := congrArg String.length h
  rw [length_dotted] at this
  omega

theorem dotted_eq_iff (path : String) (i j : Nat) :
    dotted path i = dotted path j ↔ toString i = toString j := by
  constructor
  · intro h
    have hd := congrArg String.data h
    simp only [dotted, String.data_append, List.append_assoc] at hd
    exact String.ext (List.append_cancel_left (List.append_cancel_left hd))
  · intro h
    simp [dotted, h]

/-! ### Claim C4: the rotation sequence -/

/-- Rotation sequence written from the spec's words, independently of the
code's loop: "for `i` from `max_files - 1` down to `1`: the rename source is
`path` when `i == 1`, otherwise `path.(i-1)`; the rename target is always
`path.i`; perform the rename only if the source exists; a rename failure for
any single step is ignored".  The argument of the recursion is the index
about to be processed, so the whole sequence is `rotateSpec path f fs
(maxFiles - 1)`. -/
def rotateSpec (path : String) (renameFails : Nat → Bool) (fs : FS) :
    Nat → FS
  | 0 => fs
  | Nat.succ k =>
    let i := Nat.succ k
    let src := if i = 1 then path else dotted path (i - 1)
    let fs2 :=
      if (fs src).isSome then
        if renameFails i then fs else fsRename fs src (dotted path i)
      else fs
    rotateSpec path renameFails fs2 k

theorem foldl_rotStep_eq_rotateSpec (path : String) (renameFails : Nat → Bool) :
    ∀ (k : Nat) (fs : FS),
      ((List.range' 1 k).reverse).foldl (rotStep path renameFails) fs =
        rotateSpec path renameFails fs k := by
  intro k
  induction k with
  | zero => intro fs; rfl
  | succ k ih =>
    intro fs
    rw [List.range'_concat, List.reverse_append, List.reverse_singleton,
      List.singleton_append, List.foldl_cons, ih]
    show rotateSpec path renameFails (rotStep path renameFails fs (1 + 1 * k)) k =
      rotateSpec path renameFails fs (k + 1)
    have hk : 1 + 1 * k = k + 1 := by omega
    rw [hk]
    rfl

/-- C4: the code's rotation loop is exactly the spec's descending rename
sequence — iterate `i` from `max_files - 1` down to `1`, renaming `path`
(when `i = 1`) or `path.(i-1)` (otherwise) onto `path.i` only when the
source exists, ignoring failed renames. -/
theorem c4_rotation_sequence (fs : FS) (path : String) (maxFiles : Nat)
    (renameFails : Nat → Bool) :
    rotate fs path maxFiles renameFails =
      rotateSpec path renameFails fs (maxFiles - 1) :=
  foldl_rotStep_eq_rotateSpec path renameFails (maxFiles - 1) fs

/-! ### Claim C5: error behavior of `append_log` -/

/-- C5: `append_log` returns an error exactly when the parent-directory
creation fails or the final open or write fails; rotation rename failures
(`renameFails` arbitrary) never surface as an error. -/
theorem c5_append_error_iff (fs : FS) (path line : String)
    (maxBytes maxFiles : Nat) (mkdirFails : Bool) (renameFails : Nat → Bool)
    (openFails writeFails : Bool) :
    (append_log fs path line maxBytes maxFiles mkdirFails renameFails
        openFails writeFails).isOk = false ↔
      (mkdirFails = true ∨ openFails = true ∨ writeFails = true) := by
  cases mkdirFails <;> cases openFails <;> cases writeFails <;>
    simp [append_log, Except.isOk, Except.toBool]

/-! ### Claims C7, C8, C9 -/

theorem rotate_of_le_one (fs : FS) (path : String) (maxFiles : Nat)
    (renameFails : Nat → Bool) (h : maxFiles ≤ 1) :
    rotate fs path maxFiles renameFails = fs := by
  unfold rotate
  have h0 : maxFiles - 1 = 0 := by omega
  rw [h0]
  rfl

/-- C7: with `max_files ≤ 1` and an over-threshold file at `path`, the
rotation loop is empty, no rename happens (every other file is unchanged by
the resulting map), the line is appended to the existing content, and the
size ends up strictly past `max_bytes`. -/
theorem c7_small_maxFiles (fs : FS) (path line : String)
    (maxBytes maxFiles : Nat) (c : String) (hm : maxFiles ≤ 1)
    (hex : fs path = some c) (hsz : maxBytes ≤ c.length) :
    append_log fs path line maxBytes maxFiles false noFail false false =
      Except.ok (fun q =>
        if q = path then some (c ++ line ++ "\n") else fs q) ∧
    maxBytes < (c ++ line ++ "\n").length := by
  constructor
  · simp [append_log, fsSize, hex, hsz,
      rotate_of_le_one fs path maxFiles noFail hm]
  · have hl : (c ++ line ++ "\n").length = c.length + line.length + 1 := by
      simp [String.length_append, show ("\n").length = 1 from rfl]
    omega

/-- Witness for C7: a 3-byte file at threshold 3 with `max_files = 1`. -/
theorem c7_small_maxFiles_witness :
    append_log (fsOf [("log", "abc")]) "log" "x" 3 1 false noFail false
        false =
      Except.ok (fun q =>
        if q = "log" then some ("abc" ++ "x" ++ "\n")
        else fsOf [("log", "abc")] q) ∧
    3 < ("abc" ++ "x" ++ "\n").length :=
  c7_small_maxFiles (fsOf [("log", "abc")]) "log" "x" 3 1 "abc" (by decide)
    (by rfl) (by decide)

/-- C8: with an under-threshold file at `path`, no rename happens (every
file other than `path` is unchanged by the resulting map) and the content of
`path` grows by exactly `line.length + 1` bytes. -/
theorem c8_no_rotation_below_threshold (fs : FS) (path line : String)
    (maxBytes maxFiles : Nat) (c : String)
    (hex : fs path = some c) (hsz : c.length < maxBytes) :
    append_log fs path line maxBytes maxFiles false noFail false false =
      Except.ok (fun q =>
        if q = path then some (c ++ line ++ "\n") else fs q) ∧
    (c ++ line ++ "\n").length = c.length + (line.length + 1) := by
  constructor
  · simp [append_log, fsSize, hex, Nat.not_le.mpr hsz]
  · simp [String.length_append, show ("\n").length = 1 from rfl]
    omega

/-- Witness for C8: a 3-byte file with threshold 10. -/
theorem c8_no_rotation_below_threshold_witness :
    append_log (fsOf [("log", "abc")]) "log" "x" 10 4 false noFail false
        false =
      Except.ok (fun q =>
        if q = "log" then some ("abc" ++ "x" ++ "\n")
        else fsOf [("log", "abc")] q) ∧
    ("abc" ++ "x" ++ "\n").length = ("abc").length + (("x").length + 1) :=
  c8_no_rotation_below_threshold (fsOf [("log", "abc")]) "log" "x" 10 4
    "abc" (by rfl) (by decide)

/-- C9: `append_log` is a deterministic function of the pre-state and its
arguments — two runs from (pointwise) equal pre-states with the same
arguments and the same environment outcomes produce equal results. -/
theorem c9_deterministic (fs1 fs2 : FS) (path line : String)
    (maxBytes maxFiles : Nat) (mkdirFails : Bool) (renameFails : Nat → Bool)
    (openFails writeFails : Bool) (h : ∀ q, fs1 q = fs2 q) :
    append_log fs1 path line maxBytes maxFiles mkdirFails renameFails
        openFails writeFails =
      append_log fs2 path line maxBytes maxFiles mkdirFails renameFails
        openFails writeFails := by
  have h2 : fs1 = fs2 := funext h
  rw [h2]

/-- Witness for C9 at a concrete pre-state. -/
theorem c9_deterministic_witness :
    append_log (fsOf [("log", "A")]) "log" "B" 1 3 false noFail false
        false =
      append_log (fun q => fsOf [("log", "A")] q) "log" "B" 1 3 false noFail
        false false :=
  c9_deterministic (fsOf [("log", "A")]) (fun q => fsOf [("log", "A")] q)
    "log" "B" 1 3 false noFail false false (fun _ => rfl)

/-! ### Claim C10: frame property of `append_log` -/

theorem foldl_rotStep_frame (path : String) (rf : Nat → Bool) :
    ∀ (L : List Nat) (fs : FS) (q : String), q ≠ path →
      (∀ i ∈ L, q ≠ dotted path i ∧ (2 ≤ i → q ≠ dotted path (i - 1))) →
      L.foldl (rotStep path rf) fs q = fs q := by
  intro L
  induction L with
  | nil => intro fs q _ _; rfl
  | cons i L ih =>
    intro fs q hq hL
    rw [List.foldl_cons]
    rw [ih _ q hq (fun j hj => hL j (List.mem_cons_of_mem i hj))]
    have h1 : q ≠ dotted path i := (hL i (List.mem_cons_self i L)).1
    have hsrcne : q ≠ (if i = 1 then path else dotted path (i - 1)) := by
      by_cases h01 : i = 1
      · subst h01; simpa using hq
      · rw [if_neg h01]
        by_cases h02 : 2 ≤ i
        · exact (hL i (List.mem_cons_self i L)).2 h02
        · have h03 : i = 0 := by omega
          subst h03
          simpa using h1
    show rotStep path rf fs i q = fs q
    unfold rotStep
    by_cases hcase : (fs (if i = 1 then path else dotted path (i - 1))).isSome = true
    · rw [if_pos hcase]
      by_cases hrf : rf i = true
      · rw [if_pos hrf]
      · rw [if_neg hrf]
        unfold fsRename
        rw [if_neg h1, if_neg hsrcne]
    · rw [if_neg hcase]

/-- C10: a successful `append_log` call only touches `path` and the chain
slots `path.1` … `path.(max_files-1)`; every other file — higher-numbered
siblings `path.j` with `j ≥ max_files`, unrelated files — is exactly as it
was before the call. -/
theorem c10_frame (fs : FS) (path line : String) (maxBytes maxFiles : Nat)
    (q : String) (hq : q ≠ path)
    (hi : ∀ i ∈ List.range' 1 (maxFiles - 1), q ≠ dotted path i) :
    runAppend fs path line maxBytes maxFiles q = fs q := by
  have hrot : rotate fs path maxFiles noFail q = fs q := by
    apply foldl_rotStep_frame path noFail _ fs q hq
    intro i hiL
    rw [List.mem_reverse] at hiL
    obtain ⟨j, hj, hij⟩ := List.mem_range'.mp hiL
    refine ⟨hi i hiL, ?_⟩
    intro h2
    apply hi (i - 1)
    apply List.mem_range'.mpr
    exact ⟨i - 1 - 1, by omega, by omega⟩
  have happ : runAppend fs path line maxBytes maxFiles = fun q' =>
      if q' = path then
        some ((((if (fs path).isSome then
            if maxBytes ≤ fsSize fs path then rotate fs path maxFiles noFail
            else fs else fs) path).getD "") ++ line ++ "\n")
      else (if (fs path).isSome then
            if maxBytes ≤ fsSize fs path then rotate fs path maxFiles noFail
            else fs else fs) q' := rfl
  rw [happ]
  simp only [if_neg hq]
  by_cases h1 : (fs path).isSome = true
  · by_cases h2 : maxBytes ≤ fsSize fs path
    · rw [if_pos h1, if_pos h2]
      exact hrot
    · rw [if_pos h1, if_neg h2]
  · rw [if_neg h1]

/-- Witness for C10: an unrelated file `other` survives a rotating append
untouched. -/
theorem c10_frame_witness :
    runAppend (fsOf [("log", "AA"), ("other", "Z")]) "log" "x" 1 3
        "other" =
      fsOf [("log", "AA"), ("other", "Z")] "other" :=
  c10_frame (fsOf [("log", "AA"), ("other", "Z")]) "log" "x" 1 3 "other"
    (by decide) (by decide)

/-! ### Claim C6: chain size bound -/

/-- One queued call of the log rotator: the line to append and the size
threshold passed with it. -/
structure LogCall where
  line : String
  maxBytes : Nat

/-- A sequence of fully successful `append_log` calls on the same `path`
with a common `max_files` value, applied in order. -/
def appendChain (path : String) (maxFiles : Nat) (calls : List LogCall)
    (fs : FS) : FS :=
  calls.foldl (fun f c => runAppend f path c.line c.maxBytes maxFiles) fs

theorem foldl_rotStep_mem (path : String) (rf : Nat → Bool)
    (S : Finset String) :
    ∀ (L : List Nat) (fs : FS),
      (∀ i ∈ L, dotted path i ∈ S) →
      (∀ q, (fs q).isSome = true → q ∈ S) →
      ∀ q, ((L.foldl (rotStep path rf) fs) q).isSome = true → q ∈ S := by
  intro L
  induction L with
  | nil => intro fs _ hfs q; exact hfs q
  | cons i L ih =>
    intro fs hL hfs q hq
    rw [List.foldl_cons] at hq
    refine ih _ (fun j hj => hL j (List.mem_cons_of_mem i hj)) ?_ q hq
    intro q2 hq2
    unfold rotStep at hq2
    by_cases hsrc :
        (fs (if i = 1 then path else dotted path (i - 1))).isSome = true
    · rw [if_pos hsrc] at hq2
      by_cases hrf : rf i = true
      · rw [if_pos hrf] at hq2
        exact hfs q2 hq2
      · rw [if_neg hrf] at hq2
        unfold fsRename at hq2
        by_cases ht : q2 = dotted path i
        · subst ht
          exact hL i (List.mem_cons_self i L)
        · rw [if_neg ht] at hq2
          by_cases hs2 : q2 = (if i = 1 then path else dotted path (i - 1))
          · rw [if_pos hs2] at hq2
            simp at hq2
          · rw [if_neg hs2] at hq2
            exact hfs q2 hq2
    · rw [if_neg hsrc] at hq2
      exact hfs q2 hq2

theorem runAppend_mem (S : Finset String) (fs : FS) (path line : String)
    (mb m : Nat) (hpath : path ∈ S)
    (hdot : ∀ i ∈ List.range' 1 (m - 1), dotted path i ∈ S)
    (hfs : ∀ q, (fs q).isSome = true → q ∈ S) :
    ∀ q, ((runAppend fs path line mb m) q).isSome = true → q ∈ S := by
  intro q hq
  rw [runAppend_eval] at hq
  by_cases hqp : q = path
  · subst hqp; exact hpath
  · rw [if_neg hqp] at hq
    by_cases h1 : (fs path).isSome = true
    · by_cases h2 : mb ≤ fsSize fs path
      · rw [if_pos h1, if_pos h2] at hq
        unfold rotate at hq
        exact foldl_rotStep_mem path noFail S _ fs
          (fun i hi => hdot i (List.mem_reverse.mp hi)) hfs q hq
      · rw [if_pos h1, if_neg h2] at hq
        exact hfs q hq
    · rw [if_neg h1] at hq
      exact hfs q hq

theorem appendChain_mem (S : Finset String) (path : String) (maxFiles : Nat)
    (hpath : path ∈ S)
    (hdot : ∀ i ∈ List.range' 1 (maxFiles - 1), dotted path i ∈ S) :
    ∀ (cs : List LogCall) (fs : FS),
      (∀ q, (fs q).isSome = true → q ∈ S) →
      ∀ q, ((appendChain path maxFiles cs fs) q).isSome = true → q ∈ S := by
  intro cs
  induction cs with
  | nil => intro fs hfs q hq; exact hfs q hq
  | cons c cs ih =>
    intro fs hfs q hq
    unfold appendChain at hq
    rw [List.foldl_cons] at hq
    exact ih (runAppend fs path c.line c.maxBytes maxFiles)
      (runAppend_mem S fs path c.line c.maxBytes maxFiles hpath hdot hfs)
      q hq

/-- C6, amended: for a fixed `max_files ≥ 1`, every sequence of successful
appends starting from the empty filesystem keeps all existing files inside
the set `{path, path.1, …, path.(max_files-1)}`, which has at most
`max_files` elements — so the chain at rest never holds more than
`max_files` files.  (With `max_files` varying across calls this fails,
because `append_log` never deletes a higher-numbered sibling; see the
counterexample.) -/
theorem c6_chain_bound_fixed_maxFiles (path : String) (maxFiles : Nat)
    (calls : List LogCall) (h : 1 ≤ maxFiles) :
    ∃ S : Finset String, S.card ≤ maxFiles ∧
      ∀ q, ((appendChain path maxFiles calls emptyFS) q).isSome = true →
        q ∈ S := by
  refine ⟨insert path ((Finset.Icc 1 (maxFiles - 1)).image (dotted path)),
    ?_, ?_⟩
  · have h1 := Finset.card_insert_le path
      ((Finset.Icc 1 (maxFiles - 1)).image (dotted path))
    have h2 : ((Finset.Icc 1 (maxFiles - 1)).image (dotted path)).card ≤
        (Finset.Icc 1 (maxFiles - 1)).card := Finset.card_image_le
    have h3 : (Finset.Icc 1 (maxFiles - 1)).card = maxFiles - 1 := by
      rw [Nat.card_Icc]
      omega
    omega
  · have hpath : path ∈
        insert path ((Finset.Icc 1 (maxFiles - 1)).image (dotted path)) :=
      Finset.mem_insert_self path _
    have hdot : ∀ i ∈ List.range' 1 (maxFiles - 1), dotted path i ∈
        insert path ((Finset.Icc 1 (maxFiles - 1)).image (dotted path)) := by
      intro i hi
      obtain ⟨j, hj, hij⟩ := List.mem_range'.mp hi
      apply Finset.mem_insert_of_mem
      apply Finset.mem_image_of_mem
      rw [Finset.mem_Icc]
      omega
    apply appendChain_mem _ path maxFiles hpath hdot calls emptyFS
    intro q hq
    simp [emptyFS] at hq

/-- Witness for the amended C6 at a concrete three-call sequence with
`max_files = 3`. -/
theorem c6_chain_bound_fixed_maxFiles_witness :
    ∃ S : Finset String, S.card ≤ 3 ∧
      ∀ q, ((appendChain "log" 3 [⟨"a", 1⟩, ⟨"b", 1⟩, ⟨"c", 1⟩] emptyFS)
          q).isSome = true → q ∈ S :=
  c6_chain_bound_fixed_maxFiles "log" 3 [⟨"a", 1⟩, ⟨"b", 1⟩, ⟨"c", 1⟩]
    (by decide)

/-- C6, counterexample: a concrete sequence of six successful appends from
the empty filesystem, the first five with `max_files = 6` (building the
chain `log, log.1, …, log.4`), the last with `max_files = 4`.  After the
last append the chain holds the five files `log, log.1, log.2, log.3,
log.4` — more than the final call's `max_files = 4` — because rotation with
`max_files = 4` never touches (and never deletes) the higher-numbered
sibling `log.4`. -/
theorem c6_counterexample :
    runAppend emptyFS "log" "a" 1 6 = fsOf [("log", "a\n")] ∧
    runAppend (fsOf [("log", "a\n")]) "log" "b" 1 6 =
      fsOf [("log", "b\n"), ("log.1", "a\n")] ∧
    runAppend (fsOf [("log", "b\n"), ("log.1", "a\n")]) "log" "c" 1 6 =
      fsOf [("log", "c\n"), ("log.1", "b\n"), ("log.2", "a\n")] ∧
    runAppend (fsOf [("log", "c\n"), ("log.1", "b\n"), ("log.2", "a\n")])
        "log" "d" 1 6 =
      fsOf [("log", "d\n"), ("log.1", "c\n"), ("log.2", "b\n"),
        ("log.3", "a\n")] ∧
    runAppend (fsOf [("log", "d\n"), ("log.1", "c\n"), ("log.2", "b\n"),
        ("log.3", "a\n")]) "log" "e" 1 6 =
      fsOf [("log", "e\n"), ("log.1", "d\n"), ("log.2", "c\n"),
        ("log.3", "b\n"), ("log.4", "a\n")] ∧
    runAppend (fsOf [("log", "e\n"), ("log.1", "d\n"), ("log.2", "c\n"),
        ("log.3", "b\n"), ("log.4", "a\n")]) "log" "f" 1 4 =
      fsOf [("log", "f\n"), ("log.1", "e\n"), ("log.2", "d\n"),
        ("log.3", "c\n"), ("log.4", "a\n")] ∧
    ¬ ∃ S : Finset String, S.card ≤ 4 ∧
      ∀ q, ((fsOf [("log", "f\n"), ("log.1", "e\n"), ("log.2", "d\n"),
        ("log.3", "c\n"), ("log.4", "a\n")]) q).isSome = true → q ∈ S := by
  refine ⟨?_, ?_, ?_, ?_, ?_, ?_, ?_⟩
  · funext q
    by_cases h0 : q = "log"
    · subst h0; rfl
    by_cases h1 : q = "log.1"
    · subst h1; rfl
    by_cases h2 : q = "log.2"
    · subst h2; rfl
    by_cases h3 : q = "log.3"
    · subst h3; rfl
    by_cases h4 : q = "log.4"
    · subst h4; rfl
    by_cases h5 : q = "log.5"
    · subst h5; rfl
    simp [runAppend_eval, rotate, rotStep, fsRename, fsSize, fsOf, noFail,
      emptyFS, show List.range' 1 5 = [1, 2, 3, 4, 5] from rfl,
      show dotted "log" 1 = "log.1" from rfl,
      show dotted "log" 2 = "log.2" from rfl,
      show dotted "log" 3 = "log.3" from rfl,
      show dotted "log" 4 = "log.4" from rfl,
      show dotted "log" 5 = "log.5" from rfl,
      show ("a\n").length = 2 from rfl, h0, h1, h2, h3, h4, h5]
  · funext q
    by_cases h0 : q = "log"
    · subst h0; rfl
    by_cases h1 : q = "log.1"
    · subst h1; rfl
    by_cases h2 : q = "log.2"
    · subst h2; rfl
    by_cases h3 : q = "log.3"
    · subst h3; rfl
    by_cases h4 : q = "log.4"
    · subst h4; rfl
    by_cases h5 : q = "log.5"
    · subst h5; rfl
    simp [runAppend_eval, rotate, rotStep, fsRename, fsSize, fsOf, noFail,
      emptyFS, show List.range' 1 5 = [1, 2, 3, 4, 5] from rfl,
      show dotted "log" 1 = "log.1" from rfl,
      show dotted "log" 2 = "log.2" from rfl,
      show dotted "log" 3 = "log.3" from rfl,
      show dotted "log" 4 = "log.4" from rfl,
      show dotted "log" 5 = "log.5" from rfl,
      show ("a\n").length = 2 from rfl, h0, h1, h2, h3, h4, h5]
  · funext q
    by_cases h0 : q = "log"
    · subst h0; rfl
    by_cases h1 : q = "log.1"
    · subst h1; rfl
    by_cases h2 : q = "log.2"
    · subst h2; rfl
    by_cases h3 : q = "log.3"
    · subst h3; rfl
    by_cases h4 : q = "log.4"
    · subst h4; rfl
    by_cases h5 : q = "log.5"
    · subst h5; rfl
    simp [runAppend_eval, rotate, rotStep, fsRename, fsSize, fsOf, noFail,
      emptyFS, show List.range' 1 5 = [1, 2, 3, 4, 5] from rfl,
      show dotted "log" 1 = "log.1" from rfl,
      show dotted "log" 2 = "log.2" from rfl,
      show dotted "log" 3 = "log.3" from rfl,
      show dotted "log" 4 = "log.4" from rfl,
      show dotted "log" 5 = "log.5" from rfl,
      show ("b\n").length = 2 from rfl, h0, h1, h2, h3, h4, h5]
  · funext q
    by_cases h0 : q = "log"
    · subst h0; rfl
    by_cases h1 : q = "log.1"
    · subst h1; rfl
    by_cases h2 : q = "log.2"
    · subst h2; rfl
    by_cases h3 : q = "log.3"
    · subst h3; rfl
    by_cases h4 : q = "log.4"
    · subst h4; rfl
    by_cases h5 : q = "log.5"
    · subst h5; rfl
    simp [runAppend_eval, rotate, rotStep, fsRename, fsSize, fsOf, noFail,
      emptyFS, show List.range' 1 5 = [1, 2, 3, 4, 5] from rfl,
      show dotted "log" 1 = "log.1" from rfl,
      show dotted "log" 2 = "log.2" from rfl,
      show dotted "log" 3 = "log.3" from rfl,
      show dotted "log" 4 = "log.4" from rfl,
      show dotted "log" 5 = "log.5" from rfl,
      show ("c\n").length = 2 from rfl, h0, h1, h2, h3, h4, h5]
  · funext q
    by_cases h0 : q = "log"
    · subst h0; rfl
    by_cases h1 : q = "log.1"
    · subst h1; rfl
    by_cases h2 : q = "log.2"
    · subst h2; rfl
    by_cases h3 : q = "log.3"
    · subst h3; rfl
    by_cases h4 : q = "log.4"
    · subst h4; rfl
    by_cases h5 : q = "log.5"
    · subst h5; rfl
    simp [runAppend_eval, rotate, rotStep, fsRename, fsSize, fsOf, noFail,
      emptyFS, show List.range' 1 5 = [1, 2, 3, 4, 5] from rfl,
      show dotted "log" 1 = "log.1" from rfl,
      show dotted "log" 2 = "log.2" from rfl,
      show dotted "log" 3 = "log.3" from rfl,
      show dotted "log" 4 = "log.4" from rfl,
      show dotted "log" 5 = "log.5" from rfl,
      show ("d\n").length = 2 from rfl, h0, h1, h2, h3, h4, h5]
  · funext q
    by_cases h0 : q = "log"
    · subst h0; rfl
    by_cases h1 : q = "log.1"
    · subst h1; rfl
    by_cases h2 : q = "log.2"
    · subst h2; rfl
    by_cases h3 : q = "log.3"
    · subst h3; rfl
    by_cases h4 : q = "log.4"
    · subst h4; rfl
    simp [runAppend_eval, rotate, rotStep, fsRename, fsSize, fsOf, noFail,
      emptyFS, show List.range' 1 3 = [1, 2, 3] from rfl,
      show dotted "log" 1 = "log.1" from rfl,
      show dotted "log" 2 = "log.2" from rfl,
      show dotted "log" 3 = "log.3" from rfl,
      show ("e\n").length = 2 from rfl, h0, h1, h2, h3, h4]
  · rintro ⟨S, hcard, hmem⟩
    have hsub : ({"log", "log.1", "log.2", "log.3", "log.4"} :
        Finset String) ⊆ S := by
      intro q hq
      simp only [Finset.mem_insert, Finset.mem_singleton] at hq
      rcases hq with rfl | rfl | rfl | rfl | rfl <;> exact hmem _ (by decide)
    have h5 : ({"log", "log.1", "log.2", "log.3", "log.4"} :
        Finset String).card = 5 := by decide
    have hle := Finset.card_le_card hsub
    omega

/-! ### Claim C3: rotation post-state at `max_files = 4` -/

theorem rotStep_eval (path : String) (fs : FS) (i : Nat) (q : String) :
    rotStep path noFail fs i q =
      if (fs (if i = 1 then path else dotted path (i - 1))).isSome then
        (if q = dotted path i then
          fs (if i = 1 then path else dotted path (i - 1))
         else if q = (if i = 1 then path else dotted path (i - 1)) then none
         else fs q)
      else fs q := by
  unfold rotStep fsRename noFail
  by_cases h : (fs (if i = 1 then path else dotted path (i - 1))).isSome = true
  · rw [if_pos h, if_pos h]
    simp
  · rw [if_neg h, if_neg h]

/-- C3, counterexample: pre-state `log ↦ "AA"` (size 2 ≥ max_bytes 1) and
`log.3 ↦ "Z"`, with `log.1` and `log.2` absent and `max_files = 4`.  The
rename onto `log.3` is skipped because its source `log.2` does not exist, so
the prior `log.3` is still there after the append — the claim says it must
be gone. -/
theorem c3_counterexample :
    fsOf [("log", "AA"), ("log.3", "Z")] "log" = some "AA" ∧
    1 ≤ ("AA").length ∧
    runAppend (fsOf [("log", "AA"), ("log.3", "Z")]) "log" "B" 1 4
      "log.3" = some "Z" := by
  refine ⟨rfl, by decide, by decide⟩

/-- C3, amended: for a pre-state with `path` at least `max_bytes` large and
`max_files = 4`, after a successful append `path` holds exactly the new line
plus newline, `path.1` holds the pre-append content of `path`, `path.2`
holds the pre-append `path.1` when that existed (and is absent otherwise),
and `path.3` holds the pre-append `path.2` when that existed — but when
`path.2` did not exist the rename into slot 3 is skipped, so a prior
`path.3` survives unchanged (rather than being gone, as the claim stated). -/
theorem c3_amended (fs : FS) (path line : String) (maxBytes : Nat)
    (c : String) (hex : fs path = some c) (hsz : maxBytes ≤ c.length) :
    runAppend fs path line maxBytes 4 path = some (line ++ "\n") ∧
    runAppend fs path line maxBytes 4 (dotted path 1) = some c ∧
    runAppend fs path line maxBytes 4 (dotted path 2) =
      (if (fs (dotted path 1)).isSome then fs (dotted path 1) else none) ∧
    runAppend fs path line maxBytes 4 (dotted path 3) =
      (if (fs (dotted path 2)).isSome then fs (dotted path 2)
       else fs (dotted path 3)) := by
  have hd1 : ¬ (dotted path 1 = path) := dotted_ne_base path 1
  have hd2 : ¬ (dotted path 2 = path) := dotted_ne_base path 2
  have hd3 : ¬ (dotted path 3 = path) := dotted_ne_base path 3
  have hp1 : ¬ (path = dotted path 1) := fun h => hd1 h.symm
  have hp2 : ¬ (path = dotted path 2) := fun h => hd2 h.symm
  have hp3 : ¬ (path = dotted path 3) := fun h => hd3 h.symm
  have h12 : ¬ (dotted path 1 = dotted path 2) := fun h =>
    absurd ((dotted_eq_iff path 1 2).mp h) (by decide)
  have h21 : ¬ (dotted path 2 = dotted path 1) := fun h => h12 h.symm
  have h13 : ¬ (dotted path 1 = dotted path 3) := fun h =>
    absurd ((dotted_eq_iff path 1 3).mp h) (by decide)
  have h31 : ¬ (dotted path 3 = dotted path 1) := fun h => h13 h.symm
  have h23 : ¬ (dotted path 2 = dotted path 3) := fun h =>
    absurd ((dotted_eq_iff path 2 3).mp h) (by decide)
  have h32 : ¬ (dotted path 3 = dotted path 2) := fun h => h23 h.symm
  have hsome : (fs path).isSome = true := by simp [hex]
  have hsize : maxBytes ≤ fsSize fs path := by simpa [fsSize, hex] using hsz
  have hrot : rotate fs path 4 noFail =
      rotStep path noFail
        (rotStep path noFail (rotStep path noFail fs 3) 2) 1 := rfl
  refine ⟨?_, ?_, ?_, ?_⟩ <;>
  · rcases hfd1 : fs (dotted path 1) with _ | v1 <;>
      rcases hfd2 : fs (dotted path 2) with _ | v2 <;>
        simp [runAppend_eval, hsome, hsize, hrot, rotStep_eval, hex, hfd1,
          hfd2, hd1, hd2, hd3, hp1, hp2, hp3, h12, h21, h13, h31, h23, h32]

/-- Witness for the amended C3 at a concrete over-threshold pre-state. -/
theorem c3_amended_witness :
    runAppend (fsOf [("log", "AA")]) "log" "B" 1 4 "log" =
      some ("B" ++ "\n") :=
  (c3_amended (fsOf [("log", "AA")]) "log" "B" 1 "AA" rfl (by decide)).1
